import Mathlib

/-!
Verification of the thread-analysis log engine (`analyze_thread_logs.py`).

Python strings are modelled as `List Char` (`Str`), Python lists as Lean
lists, and Python sets as insertion-ordered duplicate-free lists built with
`pySetInsert`.  File reading is modelled by an environment `Str → Except Str Str`
mapping a path to its content or to an error message.  Regular-expression
matching is hand-compiled, per pattern, with Python's leftmost plus
greedy-with-backtracking semantics.
-/

set_option maxRecDepth 10000

/-- Python strings as lists of characters. -/
abbrev Str := List Char

/-- Python `str.isspace` characters relevant to `strip()` / `\s` (ASCII set). -/
def isPyWhitespace (c : Char) : Bool :=
  c = ' ' || c = '\t' || c = '\n' || c = '\r' || c = '\x0b' || c = '\x0c'

/-- Python `str.strip()`: drop leading and trailing whitespace. -/
def pyStrip (s : Str) : Str :=
  ((s.dropWhile isPyWhitespace).reverse.dropWhile isPyWhitespace).reverse

/-- Python `pat in s` substring test (`pat` is a contiguous substring of `s`). -/
def containsStr (s pat : Str) : Bool :=
  match s with
  | [] => pat.isEmpty
  | _ :: rest => pat.isPrefixOf s || containsStr rest pat

/-- Python `s.split(sep)` for a one-character separator. -/
def splitOnChar (sep : Char) : Str → List Str
  | [] => [[]]
  | c :: rest =>
    if c = sep then [] :: splitOnChar sep rest
    else
      match splitOnChar sep rest with
      | [] => [[c]]
      | s :: ss => (c :: s) :: ss

/-- Python `s.replace(pat, repl)` for a non-empty `pat`: replace every
non-overlapping occurrence, scanning left to right.  (When the first match is
taken, `pat.length ≥ 1` chars are consumed, written as `rest.drop (pat.length - 1)`;
the structural fuel, the text length plus one, is therefore always enough.) -/
def pyReplaceGo (pat repl : Str) : Nat → Str → Str
  | 0, cs => cs
  | _ + 1, [] => []
  | fuel + 1, c :: rest =>
    if pat ≠ [] ∧ pat.isPrefixOf (c :: rest) then
      repl ++ pyReplaceGo pat repl fuel (rest.drop (pat.length - 1))
    else
      c :: pyReplaceGo pat repl fuel rest

/-- `pyReplaceGo` with adequate fuel. -/
def pyReplace (pat repl cs : Str) : Str := pyReplaceGo pat repl (cs.length + 1) cs

/-- Python `str.upper()` (ASCII). -/
def upperStr (s : Str) : Str := s.map Char.toUpper

/-- Python `str.lower()` (ASCII). -/
def lowerStr (s : Str) : Str := s.map Char.toLower

/-- Decimal rendering of a natural number, as Python `str(n)` for `n ≥ 0`. -/
def natStr (n : Nat) : Str := (Nat.repr n).data

/-- Python set `add`: sets are modelled as insertion-ordered lists without
duplicates; adding an element already present is a no-op. -/
def pySetInsert (s : List Str) (x : Str) : List Str :=
  if List.elem x s then s else s ++ [x]

/-- Python `set(xs)` over a list: insert all elements in order. -/
def pySetOfList (xs : List Str) : List Str := xs.foldl pySetInsert []

/-- `os.path.basename` (POSIX): the part after the last slash. -/
def basename (path : Str) : Str := (splitOnChar '/' path).getLastD []

/-- Tool-name constant `HELGRIND` from the source. -/
def HELGRIND : Str := ("helgrind").data

/-- Tool-name constant `DRD` from the source. -/
def DRD : Str := ("drd").data

/-- Tool-name constant `TSAN` from the source. -/
def TSAN : Str := ("tsan").data

/-- `ThreadIssue`: the normalized issue record built by the parsers
(class `ThreadIssue` in the source; the stored `hash` field is a pure
function of the other fields and is modelled as the derived function
`ThreadIssue.hash`). -/
structure ThreadIssue where
  tool : Str
  issue_type : Str
  description : Str
  stack_trace : List Str
  file_locations : List Str
  run_id : Str
  raw_log : List Str
deriving DecidableEq, Repr

/-- `ThreadIssue._compute_hash`: `f"{tool}:{issue_type}:{stack_sig}"` where
`stack_sig` joins the first three stack frames with `"|"`. -/
def compute_hash (tool issue_type : Str) (stack_trace : List Str) : Str :=
  let stack_sig : Str :=
    if stack_trace = [] then [] else List.intercalate (("|").data) (stack_trace.take 3)
  tool ++ ':' :: issue_type ++ ':' :: stack_sig

/-- The stored dedup signature of an issue. -/
def ThreadIssue.hash (i : ThreadIssue) : Str :=
  compute_hash i.tool i.issue_type i.stack_trace

/-- The dictionary produced by `ThreadIssue.to_dict` (JSON-serializable form;
`raw_log` has no key here). -/
structure IssueDict where
  tool : Str
  issue_type : Str
  description : Str
  stack_trace : List Str
  file_locations : List Str
  run_id : Str
deriving DecidableEq, Repr

/-- `ThreadIssue.to_dict`: serialize every field except `raw_log`;
`list(file_locations)` is the identity in the ordered-list set model. -/
def ThreadIssue.to_dict (i : ThreadIssue) : IssueDict :=
  { tool := i.tool
    issue_type := i.issue_type
    description := i.description
    stack_trace := i.stack_trace
    file_locations := i.file_locations
    run_id := i.run_id }

/-- `ThreadIssue.from_dict`: rebuild an issue from a dictionary; `raw_log` is
not passed, so the constructor default (empty) applies, and `file_locations`
goes through `set(...)`. -/
def ThreadIssue.from_dict (d : IssueDict) : ThreadIssue :=
  { tool := d.tool
    issue_type := d.issue_type
    description := d.description
    stack_trace := d.stack_trace
    file_locations := pySetOfList d.file_locations
    run_id := d.run_id
    raw_log := [] }

/-- The dictionary loop of `deduplicate_issues`: `unique_issues` is an
insertion-ordered association list keyed by the issue hash; a key already
present keeps its first value. -/
def dedupGo (unique_issues : List (Str × ThreadIssue)) : List ThreadIssue → List (Str × ThreadIssue)
  | [] => unique_issues
  | issue :: rest =>
    if List.elem issue.hash (unique_issues.map Prod.fst) then dedupGo unique_issues rest
    else dedupGo (unique_issues ++ [(issue.hash, issue)]) rest

/-- `deduplicate_issues`: insert issues into the hash-keyed dictionary in
input order and return the values in insertion order. -/
def deduplicate_issues (issues : List ThreadIssue) : List ThreadIssue :=
  (dedupGo [] issues).map Prod.snd

/-- Modelled from the spec's words (for comparison with `deduplicate_issues`):
keep the first issue of each signature, discard every later issue with the
same signature. -/
def dedupeSpec : List ThreadIssue → List ThreadIssue
  | [] => []
  | i :: rest => i :: dedupeSpec (rest.filter (fun j => j.hash ≠ i.hash))
termination_by l => l.length
decreasing_by
  simp only [List.length_cons]
  exact Nat.lt_succ_of_le (List.length_filter_le _ _)

/-- Skim of `deduplicate_issues` by an explicit seen-set of hashes. -/
def seenFilter : List ThreadIssue → List Str → List ThreadIssue
  | [], _ => []
  | i :: rest, seen =>
    if List.elem i.hash seen then seenFilter rest seen
    else i :: seenFilter rest (i.hash :: seen)

/-- `is_excluded`: include patterns are substring-checked first and force
inclusion; otherwise any exclude-pattern substring match excludes. -/
def is_excluded (line : Str) (exclude_patterns include_patterns : List Str) : Bool :=
  if include_patterns.any (fun p => containsStr line p) then false
  else if exclude_patterns.any (fun p => containsStr line p) then true
  else false

/-- Character class of the group head: `[^:]` for the `at`/`in`/paren patterns,
`[^:\s]` for the bare `file.c:123` pattern. -/
def locHeadClass (spaceFree : Bool) (c : Char) : Bool :=
  if spaceFree then !(c = ':') && !(isPyWhitespace c) else !(c = ':')

/-- Matcher for `([^:]+\.[ch][^:]*):(\d+)` (or the `[^:\s]` head variant) at
the start of `cs`, trying head lengths from `k` down to `1` (the greedy,
backtracking order of the regex engine).  Returns the `"path:line"` group
text and the rest of the input after the match. -/
def matchLocFrom (cs : Str) : Nat → Option (Str × Str)
  | 0 => none
  | k + 1 =>
    let attempt : Option (Str × Str) :=
      match cs.get? (k + 1), cs.get? (k + 2) with
      | some '.', some c2 =>
        if c2 = 'c' || c2 = 'h' then
          let tail := (cs.drop (k + 3)).takeWhile (fun c => !(c = ':'))
          match cs.drop (k + 3 + tail.length) with
          | ':' :: ds =>
            let digits := ds.takeWhile Char.isDigit
            if digits.isEmpty then none
            else some ((cs.take (k + 1) ++ '.' :: c2 :: tail) ++ ':' :: digits,
                       ds.drop digits.length)
          | _ => none
        else none
      | _, _ => none
    match attempt with
    | some r => some r
    | none => matchLocFrom cs k

/-- The location group matched at the start of `cs` (head length starts at the
full greedy run of the head class). -/
def matchLocCore (spaceFree : Bool) (cs : Str) : Option (Str × Str) :=
  matchLocFrom cs ((cs.takeWhile (locHeadClass spaceFree)).length)

/-- `at\s+` with backtracking over the amount of consumed whitespace
(greedy, longest first), then the location group. -/
def tryP1Ws (rest : Str) : Nat → Option (Str × Str)
  | 0 => none
  | w + 1 =>
    match matchLocCore false (rest.drop (w + 1)) with
    | some r => some r
    | none => tryP1Ws rest w

/-- Pattern `at\s+([^:]+\.[ch][^:]*):(\d+)` anchored at the start of `cs`. -/
def tryP1 (cs : Str) : Option (Str × Str) :=
  match cs with
  | 'a' :: 't' :: rest => tryP1Ws rest ((rest.takeWhile isPyWhitespace).length)
  | _ => none

/-- Pattern `in\s+[^(]+\(([^:]+\.[ch][^:]*):(\d+)\)` anchored at the start of
`cs`.  `[^(]+` cannot cross the first parenthesis, so the parenthesis position
is forced; the whitespace/non-paren split only needs one whitespace char
first and at least one more char before the parenthesis. -/
def tryP2 (cs : Str) : Option (Str × Str) :=
  match cs with
  | 'i' :: 'n' :: rest =>
    let wsn := (rest.takeWhile isPyWhitespace).length
    let p := (rest.takeWhile (fun c => !(c = '('))).length
    if 1 ≤ wsn ∧ 2 ≤ p ∧ rest.get? p = some '(' then
      match matchLocCore false (rest.drop (p + 1)) with
      | some (loc, after) =>
        match after with
        | ')' :: after2 => some (loc, after2)
        | _ => none
      | none => none
    else none
  | _ => none

/-- Pattern `\(([^:]+\.[ch][^:]*):(\d+)\)` anchored at the start of `cs`. -/
def tryP3 (cs : Str) : Option (Str × Str) :=
  match cs with
  | '(' :: inner =>
    match matchLocCore false inner with
    | some (loc, after) =>
      match after with
      | ')' :: after2 => some (loc, after2)
      | _ => none
    | none => none
  | _ => none

/-- Pattern `([^:\s]+\.[ch][^:]*):(\d+)` anchored at the start of `cs`. -/
def tryP4 (cs : Str) : Option (Str × Str) :=
  matchLocCore true cs

/-- `pattern.finditer(line)`: scan start positions left to right, yield every
non-overlapping match.  Fuel is the line length plus one; every accepted
match consumes at least one character. -/
def finditerLoc (tryAt : Str → Option (Str × Str)) : Nat → Str → List Str
  | 0, _ => []
  | _ + 1, [] => []
  | fuel + 1, c :: rest =>
    match tryAt (c :: rest) with
    | some (loc, after) => loc :: finditerLoc tryAt fuel after
    | none => finditerLoc tryAt fuel rest

/-- `extract_file_locations`: for each line, run the four file-reference
patterns in order and add every `"path:line"` match to the set. -/
def extract_file_locations (text_block : List Str) : List Str :=
  text_block.foldl (fun locs line =>
    [tryP1, tryP2, tryP3, tryP4].foldl (fun locs2 pat =>
      (finditerLoc pat (line.length + 1) line).foldl pySetInsert locs2) locs) []

/-- `re.match(r'^\s*(?:at|by)\s+', line)` as a Boolean test. -/
def vgFrameMatch (line : Str) : Bool :=
  match line.dropWhile isPyWhitespace with
  | 'a' :: 't' :: c :: _ => isPyWhitespace c
  | 'b' :: 'y' :: c :: _ => isPyWhitespace c
  | _ => false

/-- `re.sub(r'^\s*(?:at|by)\s+', '', line.strip())`: the frame text kept for a
memory-checker / lightweight-detector stack line. -/
def vgCleanFrame (line : Str) : Str :=
  let s := pyStrip line
  match s with
  | 'a' :: 't' :: c :: rest => if isPyWhitespace c then rest.dropWhile isPyWhitespace else s
  | 'b' :: 'y' :: c :: rest => if isPyWhitespace c then rest.dropWhile isPyWhitespace else s
  | _ => s

/-- The valgrind-style stack-trace loop with its `in_stack` flag: collect
`at`/`by` frames, stop at the first blank line after a frame. -/
def vgStackGo : List Str → Bool → List Str
  | [], _ => []
  | line :: rest, in_stack =>
    if vgFrameMatch line then vgCleanFrame line :: vgStackGo rest true
    else if in_stack && (pyStrip line).isEmpty then []
    else vgStackGo rest in_stack

/-- `re.match(r'^\s*#\d+\s+', line)` as a Boolean test. -/
def tsanFrameMatch (line : Str) : Bool :=
  match line.dropWhile isPyWhitespace with
  | '#' :: rest =>
    let ds := rest.takeWhile Char.isDigit
    match rest.drop ds.length with
    | c :: _ => !ds.isEmpty && isPyWhitespace c
    | [] => false
  | _ => false

/-- `re.sub(r'^\s*#\d+\s+', '', line.strip())` for a tsan stack line. -/
def tsanCleanFrame (line : Str) : Str :=
  let s := pyStrip line
  match s with
  | '#' :: rest =>
    let ds := rest.takeWhile Char.isDigit
    match rest.drop ds.length with
    | c :: _ =>
      if !ds.isEmpty && isPyWhitespace c then (rest.drop ds.length).dropWhile isPyWhitespace
      else s
    | [] => s
  | _ => s

/-- `extract_stack_trace`: valgrind-style `at`/`by` collection with blank-line
termination for helgrind and drd; per-line `#N` collection for tsan. -/
def extract_stack_trace (text_block : List Str) (tool : Str) : List Str :=
  if tool = HELGRIND ∨ tool = DRD then vgStackGo text_block false
  else if tool = TSAN then
    text_block.filterMap (fun line =>
      if tsanFrameMatch line then some (tsanCleanFrame line) else none)
  else []

/-- Literal matcher: consume `lit` from the front of `cs`. -/
def dropLit (lit cs : Str) : Option Str :=
  if lit.isPrefixOf cs then some (cs.drop lit.length) else none

/-- The alternation `(?:Conflicting (?:load|store)|[A-Z][a-z]+ lock order violation)`
anchored at the start of `cs`; returns the matched text and the rest. -/
def matchDrdAlt (cs : Str) : Option (Str × Str) :=
  let alt1 : Option (Str × Str) :=
    match dropLit (("Conflicting ").data) cs with
    | some r =>
      match dropLit (("load").data) r with
      | some r2 => some ((("Conflicting load").data), r2)
      | none =>
        match dropLit (("store").data) r with
        | some r2 => some ((("Conflicting store").data), r2)
        | none => none
    | none => none
  match alt1 with
  | some r => some r
  | none =>
    match cs with
    | c :: rest =>
      if c.isUpper then
        let ls := rest.takeWhile Char.isLower
        if ls.isEmpty then none
        else
          match dropLit ((" lock order violation").data) (rest.drop ls.length) with
          | some r => some (c :: ls ++ (" lock order violation").data, r)
          | none => none
      else none
    | [] => none

/-- The drd block delimiter `==\d+== ?(?:Conflicting (?:load|store)|[A-Z][a-z]+ lock order violation)`
anchored at the start of `cs`.  The optional space is consumed greedily; no
fallback is needed since both alternatives start with a non-space character. -/
def matchDrdHeader (cs : Str) : Option (Str × Str) :=
  match cs with
  | '=' :: '=' :: rest =>
    let ds := rest.takeWhile Char.isDigit
    if ds.isEmpty then none
    else
      match rest.drop ds.length with
      | '=' :: '=' :: rest2 =>
        let sp : Str := match rest2 with | ' ' :: _ => [' '] | _ => []
        match matchDrdAlt (rest2.drop sp.length) with
        | some (txt, r) => some ('=' :: '=' :: ds ++ '=' :: '=' :: (sp ++ txt), r)
        | none => none
      | _ => none
  | _ => none

/-- The helgrind block delimiter `==\d+== ?---Thread-Announcement--` anchored
at the start of `cs`. -/
def matchHelgrindHeader (cs : Str) : Option (Str × Str) :=
  match cs with
  | '=' :: '=' :: rest =>
    let ds := rest.takeWhile Char.isDigit
    if ds.isEmpty then none
    else
      match rest.drop ds.length with
      | '=' :: '=' :: rest2 =>
        let sp : Str := match rest2 with | ' ' :: _ => [' '] | _ => []
        match dropLit (("---Thread-Announcement--").data) (rest2.drop sp.length) with
        | some r =>
          some ('=' :: '=' :: ds ++ '=' :: '=' :: (sp ++ ("---Thread-Announcement--").data), r)
        | none => none
      | _ => none
  | _ => none

/-- The tsan block delimiter, the literal `WARNING: ThreadSanitizer:`. -/
def WARNING_MARKER : Str := ("WARNING: ThreadSanitizer:").data

/-- Literal-marker matcher for the tsan split. -/
def matchTsanMarker (cs : Str) : Option (Str × Str) :=
  match dropLit WARNING_MARKER cs with
  | some r => some (WARNING_MARKER, r)
  | none => none

/-- `re.split(pattern, text)`: cut the text at every non-overlapping match,
scanning left to right; the delimiters are consumed.  Fuel is the text length
plus one (every accepted match consumes at least one character). -/
def reSplitGo (m : Str → Option (Str × Str)) : Nat → Str → Str → List Str
  | 0, acc, cs => [acc.reverse ++ cs]
  | _ + 1, acc, [] => [acc.reverse]
  | fuel + 1, acc, c :: rest =>
    match m (c :: rest) with
    | some (_, rest2) => acc.reverse :: reSplitGo m fuel [] rest2
    | none => reSplitGo m fuel (c :: acc) rest

/-- `re.split` wrapper with adequate fuel. -/
def reSplit (m : Str → Option (Str × Str)) (cs : Str) : List Str :=
  reSplitGo m (cs.length + 1) [] cs

/-- `re.search(pattern, text)`: leftmost match, scanning start positions left
to right. -/
def reSearch {α : Type} (m : Str → Option α) : Str → Option α
  | [] => m []
  | c :: rest =>
    match m (c :: rest) with
    | some r => some r
    | none => reSearch m rest

/-- Run-id extraction of the helgrind parser:
`basename.replace('helgrind_', '').replace('.log', '')`. -/
def helgrindRunId (log_file : Str) : Str :=
  pyReplace ((".log").data) [] (pyReplace (("helgrind_").data) [] (basename log_file))

/-- Run-id extraction of the drd parser. -/
def drdRunId (log_file : Str) : Str :=
  pyReplace ((".log").data) [] (pyReplace (("drd_").data) [] (basename log_file))

/-- Run-id extraction of the tsan parser. -/
def tsanRunId (log_file : Str) : Str :=
  pyReplace ((".log").data) [] (pyReplace (("tsan_").data) [] (basename log_file))

/-- The diagnostic message `f"Error reading {log_file}: {e}"` printed to the
error channel when a log file cannot be read. -/
def readErrMsg (log_file e : Str) : Str :=
  ("Error reading ").data ++ log_file ++ (": ").data ++ e

/-- The helgrind per-block body: re-prefix the consumed marker text, strip and
split into lines, drop the block if any line is excluded, classify, and build
the issue. -/
def processHelgrindBlock (run_id : Str) (ex inc : List Str) (piece : Str) : Option ThreadIssue :=
  let block := ("==Thread-Announcement--").data ++ piece
  let lines := splitOnChar '\n' (pyStrip block)
  if lines.any (fun l => is_excluded l ex inc) then none
  else
    let td : Str × Str :=
      if containsStr block (("Possible data race").data) then
        ((("Data Race").data),
         match lines.find? (fun l => containsStr l (("Possible data race").data)) with
         | some l => pyStrip l
         | none => ("Unknown issue").data)
      else if containsStr block (("Lock order").data) then
        ((("Lock Order Violation").data),
         match lines.find? (fun l => containsStr l (("Lock order").data)) with
         | some l => pyStrip l
         | none => ("Unknown issue").data)
      else if containsStr block (("Thread #").data) &&
              (containsStr block (("read").data) || containsStr block (("write").data)) then
        ((("Data Access Violation").data),
         match (lines.take 10).find? (fun l =>
            containsStr l (("Thread #").data) &&
            (containsStr l (("read").data) || containsStr l (("write").data))) with
         | some l => pyStrip l
         | none => ("Unknown issue").data)
      else ((("Unknown").data), (("Unknown issue").data))
    some { tool := HELGRIND, issue_type := td.1, description := td.2,
           stack_trace := extract_stack_trace lines HELGRIND,
           file_locations := extract_file_locations lines,
           run_id := run_id, raw_log := lines }

/-- `parse_helgrind_log`: read the file through the environment `fs`; on read
failure report to the diagnostic channel and return no issues; otherwise split
into error blocks, skip the header piece, and process each block. -/
def parse_helgrind_log (fs : Str → Except Str Str) (log_file : Str) (ex inc : List Str) :
    List ThreadIssue × List Str :=
  match fs log_file with
  | .error e => ([], [readErrMsg log_file e])
  | .ok content =>
    let run_id := helgrindRunId log_file
    let error_blocks := reSplit matchHelgrindHeader content
    ((error_blocks.drop 1).filterMap (processHelgrindBlock run_id ex inc), [])

/-- The drd per-block body (the block text is already reassembled, or not, by
the caller's `prev_header` logic). -/
def processDrdBlock (run_id : Str) (ex inc : List Str) (block : Str) : Option ThreadIssue :=
  let lines := splitOnChar '\n' (pyStrip block)
  if lines.any (fun l => is_excluded l ex inc) then none
  else
    let td : Str × Str :=
      if containsStr block (("Conflicting load").data) ||
         containsStr block (("Conflicting store").data) then
        ((("Data Race").data),
         match lines.find? (fun l => containsStr l (("Conflicting").data)) with
         | some l => pyStrip l
         | none => ("Unknown issue").data)
      else if containsStr block (("lock order violation").data) then
        ((("Lock Order Violation").data),
         match lines.find? (fun l => containsStr l (("lock order violation").data)) with
         | some l => pyStrip l
         | none => ("Unknown issue").data)
      else ((("Unknown").data), (("Unknown issue").data))
    some { tool := DRD, issue_type := td.1, description := td.2,
           stack_trace := extract_stack_trace lines DRD,
           file_locations := extract_file_locations lines,
           run_id := run_id, raw_log := lines }

/-- The drd parser loop: for each piece, search the previous raw segment for
the header pattern and prepend the found header (the source's `prev_header`
mechanism), update `prev_header` to the current block, then process it. -/
def drdLoop (run_id : Str) (ex inc : List Str) : Str → List Str → List ThreadIssue
  | _, [] => []
  | prev_header, piece :: rest =>
    let block :=
      match reSearch matchDrdHeader prev_header with
      | some (hdr, _) => hdr ++ piece
      | none => piece
    let tailIssues := drdLoop run_id ex inc block rest
    match processDrdBlock run_id ex inc block with
    | some i => i :: tailIssues
    | none => tailIssues

/-- `parse_drd_log`: split on the drd delimiters, skip the header piece, and
run the `prev_header` reassembly loop (which starts from an empty previous
segment). -/
def parse_drd_log (fs : Str → Except Str Str) (log_file : Str) (ex inc : List Str) :
    List ThreadIssue × List Str :=
  match fs log_file with
  | .error e => ([], [readErrMsg log_file e])
  | .ok content =>
    let run_id := drdRunId log_file
    let error_blocks := reSplit matchDrdHeader content
    (drdLoop run_id ex inc [] (error_blocks.drop 1), [])

/-- First index of `needle` in the text, as Python `str.find` (when present). -/
def findSub (needle : Str) : Str → Option Nat
  | [] => if needle.isPrefixOf ([] : Str) then some 0 else none
  | c :: rest =>
    if needle.isPrefixOf (c :: rest) then some 0
    else (findSub needle rest).map (· + 1)

/-- `block_end = block.find("\n\n"); if block_end > 0: block = block[:block_end]`. -/
def tsanTruncate (block : Str) : Str :=
  match findSub ('\n' :: '\n' :: []) block with
  | some k => if 0 < k then block.take k else block
  | none => block

/-- `\s*([^:]+)` after the marker, with greedy backtracking over the consumed
whitespace (`w + 1` whitespace chars consumed in the first case, none in the
base case); returns the group. -/
def tsanTypeWs (r : Str) : Nat → Option Str
  | 0 =>
    let g := r.takeWhile (fun c => !(c = ':'))
    if g.isEmpty then none else some g
  | w + 1 =>
    let g := (r.drop (w + 1)).takeWhile (fun c => !(c = ':'))
    if g.isEmpty then tsanTypeWs r w else some g

/-- `(?:WARNING: ThreadSanitizer:)\s*([^:]+)` anchored at the start of `cs`;
returns the group. -/
def matchTsanTypeAt (cs : Str) : Option Str :=
  match dropLit WARNING_MARKER cs with
  | some r => tsanTypeWs r ((r.takeWhile isPyWhitespace).length)
  | none => none

/-- The tsan per-block body: re-prefix the marker, truncate at the first blank
line, strip and split, drop excluded blocks, classify (case-insensitively, in
priority order), and build the issue. -/
def processTsanBlock (run_id : Str) (ex inc : List Str) (piece : Str) : Option ThreadIssue :=
  let block := tsanTruncate (WARNING_MARKER ++ piece)
  let lines := splitOnChar '\n' (pyStrip block)
  if lines.any (fun l => is_excluded l ex inc) then none
  else
    let lower := lowerStr block
    let d0 : Str → Str := fun dflt =>
      match lines with
      | [] => dflt
      | l :: _ => pyStrip l
    let td : Str × Str :=
      if containsStr lower (("data race").data) then
        ((("Data Race").data), d0 (("Data Race").data))
      else if containsStr lower (("lock order inversion").data) ||
              containsStr lower (("deadlock").data) then
        ((("Lock Order Violation").data), d0 (("Lock Order Violation").data))
      else if containsStr lower (("thread leak").data) then
        ((("Thread Leak").data), d0 (("Thread Leak").data))
      else if containsStr lower (("use-after-free").data) then
        ((("Use After Free").data), d0 (("Use After Free").data))
      else
        let description := d0 (("Unknown Issue").data)
        let t : Str :=
          match reSearch matchTsanTypeAt description with
          | some g => pyStrip g
          | none => ("Unknown").data
        (t, description)
    some { tool := TSAN, issue_type := td.1, description := td.2,
           stack_trace := extract_stack_trace lines TSAN,
           file_locations := extract_file_locations lines,
           run_id := run_id, raw_log := lines }

/-- `parse_tsan_log`: split on the literal marker, skip the header piece, and
process each block. -/
def parse_tsan_log (fs : Str → Except Str Str) (log_file : Str) (ex inc : List Str) :
    List ThreadIssue × List Str :=
  match fs log_file with
  | .error e => ([], [readErrMsg log_file e])
  | .ok content =>
    let run_id := tsanRunId log_file
    let error_blocks := reSplit matchTsanMarker content
    ((error_blocks.drop 1).filterMap (processTsanBlock run_id ex inc), [])

/-- The per-tool file loop of `parse_all_logs`: accumulate (`extend`) the
issues of every discovered file of one tool, in discovery order. -/
def parseToolFiles
    (parseFn : (Str → Except Str Str) → Str → List Str → List Str → List ThreadIssue × List Str)
    (fs : Str → Except Str Str) (files : List Str) (ex inc : List Str) : List ThreadIssue :=
  (files.map (fun f => (parseFn fs f ex inc).1)).flatten

/-- Modelled from the spec's words (for comparison with the parsers' run-id
computation): take the file's base name, strip the tool-specific literal
leading text `<tool>_` when present, and strip the trailing `.log` when
present, leaving everything else unchanged. -/
def specRunIdOfBase (tool base : Str) : Str :=
  let pre := tool ++ '_' :: []
  let base1 := if pre.isPrefixOf base then base.drop pre.length else base
  let sfx := (".log").data
  if sfx.isSuffixOf base1 then base1.take (base1.length - sfx.length) else base1

/-- Python string `<` / `<=` comparison: lexicographic by code point. -/
def strLe : Str → Str → Bool
  | [], _ => true
  | _ :: _, [] => false
  | a :: as, b :: bs =>
    if a.val < b.val then true
    else if b.val < a.val then false
    else strLe as bs

/-- `sorted(strings)`: stable sort in lexicographic order (used for file
locations in the report). -/
def sortStrs (l : List Str) : List Str :=
  List.insertionSort (fun a b => strLe a b = true) l

/-- `sorted(issues, key=lambda x: x.issue_type)`: a stable sort by category. -/
def sortIssuesByType (issues : List ThreadIssue) : List ThreadIssue :=
  List.insertionSort (fun a b : ThreadIssue => strLe a.issue_type b.issue_type = true) issues

/-- The report lines appended for one displayed issue (index `i` is the
zero-based loop counter; the header says `Issue #{i+1}`). -/
def issueReportLines (i : Nat) (issue : ThreadIssue) : List Str :=
  ('\n' :: ("Issue #").data ++ natStr (i + 1) ++ (": ").data ++ issue.issue_type)
    :: List.replicate (10 + issue.issue_type.length) '-'
    :: ((("Description: ").data) ++ issue.description)
    :: ((if issue.file_locations = [] then [] else
          (("File locations:").data)
            :: ((sortStrs issue.file_locations).take 5).map (fun loc => (("  - ").data) ++ loc)
            ++ (if 5 < issue.file_locations.length then
                  [(("  - ...and ").data) ++ natStr (issue.file_locations.length - 5)
                    ++ ((" more locations").data)]
                else []))
        ++ (if issue.stack_trace = [] then [] else
            (("Stack trace (first 3 frames):").data)
              :: (issue.stack_trace.take 3).map (fun fr => (("  - ").data) ++ fr)))

/-- The trailer line `f"\n... and {total - max_issues} more {TOOL} issues"`. -/
def moreIssuesLine (toolU : Str) (max_issues total : Nat) : Str :=
  '\n' :: ("... and ").data ++ natStr (total - max_issues) ++ (" more ").data
    ++ toolU ++ (" issues").data

/-- The detailed-report loop over the sorted issues: render each issue until
the counter reaches `max_issues`, then emit the trailer and stop. -/
def showIssuesGo (toolU : Str) (max_issues total : Nat) : Nat → List ThreadIssue → List Str
  | _, [] => []
  | i, issue :: rest =>
    if max_issues ≤ i then [moreIssuesLine toolU max_issues total]
    else issueReportLines i issue ++ showIssuesGo toolU max_issues total (i + 1) rest

/-- The per-tool detailed section (heading, separator, capped issue list). -/
def toolDetailSection (tool : Str) (max_issues : Nat) (issues : List ThreadIssue) : List Str :=
  if issues = [] then []
  else
    ('\n' :: upperStr tool ++ ((" Issues:").data))
      :: List.replicate (tool.length + 8) '='
      :: showIssuesGo (upperStr tool) max_issues (sortIssuesByType issues).length 0
          (sortIssuesByType issues)

/-- `issues_by_type`: the `defaultdict(int)` counter in first-occurrence
insertion order. -/
def bumpCount (acc : List (Str × Nat)) (t : Str) : List (Str × Nat) :=
  if List.elem t (acc.map Prod.fst) then
    acc.map (fun p => if p.1 = t then (p.1, p.2 + 1) else p)
  else acc ++ [(t, 1)]

/-- Count the issues of each category, in first-occurrence order. -/
def countByType (issues : List ThreadIssue) : List (Str × Nat) :=
  issues.foldl (fun acc issue => bumpCount acc issue.issue_type) []

/-- The per-tool summary block of the report. -/
def toolSummaryLines (tool : Str) (issues : List ThreadIssue) : List Str :=
  if issues = [] then [upperStr tool ++ ((": No issues found").data)]
  else
    (upperStr tool ++ ((": ").data) ++ natStr issues.length ++ ((" issues found").data))
      :: ((countByType issues).map
            (fun p => (("  - ").data) ++ p.1 ++ ((": ").data) ++ natStr p.2))
      ++ [[]]

/-- The total line of the report header. -/
def totalSummaryLine (all_issues : List (Str × List ThreadIssue)) : Str :=
  ("Total unique issues found: ").data
    ++ natStr ((all_issues.map (fun p => p.2.length)).sum)

/-- The twelve-issue sample list used by the C7 witness. -/
def twelveIssues : List ThreadIssue :=
  (List.range 12).map (fun j =>
    ThreadIssue.mk (("drd").data) (("Data Race").data) (natStr j) [] [] [] [])

theorem seenFilter_congr (l : List ThreadIssue) :
    ∀ s t : List Str, (∀ x, x ∈ s ↔ x ∈ t) → seenFilter l s = seenFilter l t := by
  induction l with
  | nil => intro s t _; rfl
  | cons i rest ih =>
    intro s t hst
    simp only [seenFilter, List.elem_eq_mem]
    by_cases hmem : i.hash ∈ s
    · rw [decide_eq_true hmem, decide_eq_true ((hst i.hash).mp hmem)]
      simp only [ite_true]
      exact ih s t hst
    · rw [decide_eq_false hmem, decide_eq_false (fun h => hmem ((hst i.hash).mpr h))]
      simp only [Bool.false_eq_true, ite_false]
      congr 1
      refine ih _ _ ?_
      intro x
      simp only [List.mem_cons]
      exact or_congr Iff.rfl (hst x)

theorem seenFilter_cons_seen (l : List ThreadIssue) :
    ∀ (h : Str) (s : List Str),
      seenFilter l (h :: s) = seenFilter (l.filter (fun j => j.hash ≠ h)) s := by
  induction l with
  | nil => intro h s; rfl
  | cons i rest ih =>
    intro h s
    by_cases hih : i.hash = h
    · simp only [seenFilter, List.filter_cons, List.elem_eq_mem, List.mem_cons, hih]
      simp only [true_or, decide_True, ite_true, ne_eq, not_true_eq_false, decide_False,
        Bool.false_eq_true, ite_false]
      exact ih h s
    · simp only [seenFilter, List.filter_cons, List.elem_eq_mem, List.mem_cons]
      have hd : (decide (i.hash ≠ h)) = true := by simp [hih]
      rw [hd]
      simp only [ite_true]
      by_cases hmem : i.hash ∈ s
      · rw [decide_eq_true (Or.inr hmem)]
        simp only [seenFilter, List.elem_eq_mem, decide_eq_true hmem, ite_true]
        exact ih h s
      · rw [decide_eq_false (by simp [hih, hmem])]
        simp only [seenFilter, List.elem_eq_mem, decide_eq_false hmem,
          Bool.false_eq_true, ite_false]
        congr 1
        calc seenFilter rest (i.hash :: h :: s)
            = seenFilter rest (h :: i.hash :: s) := by
              refine seenFilter_congr rest _ _ ?_
              intro x
              simp only [List.mem_cons]
              tauto
          _ = seenFilter (rest.filter (fun j => j.hash ≠ h)) (i.hash :: s) := ih h _

theorem seenFilter_eq_dedupeSpec :
    ∀ (n : Nat) (l : List ThreadIssue), l.length ≤ n → seenFilter l [] = dedupeSpec l := by
  intro n
  induction n with
  | zero =>
    intro l hl
    have : l = [] := List.length_eq_zero.mp (Nat.le_zero.mp hl)
    subst this
    rw [dedupeSpec]
    rfl
  | succ n ih =>
    intro l hl
    cases l with
    | nil => rw [dedupeSpec]; rfl
    | cons i rest =>
      rw [dedupeSpec]
      simp only [seenFilter, List.elem_eq_mem, List.not_mem_nil, decide_False,
        Bool.false_eq_true, ite_false]
      rw [seenFilter_cons_seen rest i.hash []]
      congr 1
      refine ih _ ?_
      have := List.length_filter_le (fun j => decide (j.hash ≠ i.hash)) rest
      simp only [List.length_cons] at hl
      omega

theorem dedupGo_characterization (l : List ThreadIssue) :
    ∀ acc : List (Str × ThreadIssue),
      (dedupGo acc l).map Prod.snd = acc.map Prod.snd ++ seenFilter l (acc.map Prod.fst) := by
  induction l with
  | nil => intro acc; simp [dedupGo, seenFilter]
  | cons i rest ih =>
    intro acc
    rw [dedupGo]
    simp only [seenFilter, List.elem_eq_mem]
    by_cases hmem : i.hash ∈ acc.map Prod.fst
    · rw [decide_eq_true hmem]
      simp only [ite_true]
      exact ih acc
    · rw [decide_eq_false hmem]
      simp only [Bool.false_eq_true, ite_false]
      rw [ih (acc ++ [(i.hash, i)])]
      have hfst : (acc ++ [(i.hash, i)]).map Prod.fst = acc.map Prod.fst ++ [i.hash] := by
        simp
      have hsnd : (acc ++ [(i.hash, i)]).map Prod.snd = acc.map Prod.snd ++ [i] := by
        simp
      rw [hfst, hsnd]
      have hcongr : seenFilter rest (acc.map Prod.fst ++ [i.hash])
          = seenFilter rest (i.hash :: acc.map Prod.fst) := by
        refine seenFilter_congr rest _ _ ?_
        intro x
        simp only [List.mem_append, List.mem_cons, List.mem_singleton]
        tauto
      rw [hcongr]
      simp

/-- C1: `deduplicate_issues` processes issues in input order and keeps exactly
the first issue of each signature, discarding every later issue with the same
signature; the signature concatenates tool, category and the first three stack
frames joined by a separator, so frames beyond the third never influence it
(an issue with fewer than three frames uses the frames it has). -/
theorem c1_dedupe_keeps_first_per_signature :
    (∀ issues : List ThreadIssue, deduplicate_issues issues = dedupeSpec issues) ∧
    (∀ (tool issue_type : Str) (frames : List Str),
      compute_hash tool issue_type frames = compute_hash tool issue_type (frames.take 3)) := by
  constructor
  · intro issues
    rw [deduplicate_issues, dedupGo_characterization issues []]
    simpa using seenFilter_eq_dedupeSpec issues.length issues (Nat.le_refl _)
  · intro tool issue_type frames
    cases frames with
    | nil => rfl
    | cons f rest =>
      simp [compute_hash, List.take_take]

theorem pySetFold_of_nodup (l : List Str) :
    ∀ acc : List Str, (acc ++ l).Nodup → l.foldl pySetInsert acc = acc ++ l := by
  induction l with
  | nil => intro acc _; simp
  | cons x rest ih =>
    intro acc hnd
    have hx : x ∉ acc := by
      intro hmem
      have := List.disjoint_of_nodup_append hnd
      exact this hmem (List.mem_cons_self x rest)
    have hins : pySetInsert acc x = acc ++ [x] := by
      simp only [pySetInsert, List.elem_eq_mem, decide_eq_false hx]
      simp
    rw [List.foldl_cons, hins]
    have hnd' : ((acc ++ [x]) ++ rest).Nodup := by
      simpa [List.append_assoc] using hnd
    rw [ih (acc ++ [x]) hnd']
    simp

theorem pySetOfList_of_nodup (l : List Str) (h : l.Nodup) : pySetOfList l = l := by
  simpa using pySetFold_of_nodup l [] (by simpa using h)

/-- C10: rebuilding an issue from its serialized dictionary preserves tool,
category, description, stack frames, file locations, run id and the dedup
signature, while the raw block is not serialized and comes back empty. -/
theorem c10_serialization_roundtrip (i : ThreadIssue) (h : i.file_locations.Nodup) :
    (ThreadIssue.from_dict (ThreadIssue.to_dict i)).tool = i.tool ∧
    (ThreadIssue.from_dict (ThreadIssue.to_dict i)).issue_type = i.issue_type ∧
    (ThreadIssue.from_dict (ThreadIssue.to_dict i)).description = i.description ∧
    (ThreadIssue.from_dict (ThreadIssue.to_dict i)).stack_trace = i.stack_trace ∧
    (ThreadIssue.from_dict (ThreadIssue.to_dict i)).file_locations = i.file_locations ∧
    (ThreadIssue.from_dict (ThreadIssue.to_dict i)).run_id = i.run_id ∧
    (ThreadIssue.from_dict (ThreadIssue.to_dict i)).hash = i.hash ∧
    (ThreadIssue.from_dict (ThreadIssue.to_dict i)).raw_log = [] := by
  simp [ThreadIssue.from_dict, ThreadIssue.to_dict, ThreadIssue.hash,
    pySetOfList_of_nodup _ h]

/-- Witness for C10 at a concrete issue with two file locations. -/
theorem c10_serialization_roundtrip_witness :
    (ThreadIssue.from_dict (ThreadIssue.to_dict
      { tool := ("drd").data, issue_type := ("Data Race").data,
        description := ("Conflicting store").data,
        stack_trace := [("f (a.c:3)").data],
        file_locations := [("a.c:3").data, ("b.c:4").data],
        run_id := ("1").data, raw_log := [("x").data] })).file_locations
      = [("a.c:3").data, ("b.c:4").data] ∧
    (ThreadIssue.from_dict (ThreadIssue.to_dict
      { tool := ("drd").data, issue_type := ("Data Race").data,
        description := ("Conflicting store").data,
        stack_trace := [("f (a.c:3)").data],
        file_locations := [("a.c:3").data, ("b.c:4").data],
        run_id := ("1").data, raw_log := [("x").data] })).raw_log = [] := by
  refine ⟨?_, ?_⟩
  · exact (c10_serialization_roundtrip _ (by decide)).2.2.2.2.1
  · exact (c10_serialization_roundtrip _ (by decide)).2.2.2.2.2.2.2

theorem processHelgrindBlock_not_excluded (run_id : Str) (ex inc : List Str) (piece : Str)
    (issue : ThreadIssue) (h : processHelgrindBlock run_id ex inc piece = some issue) :
    ∀ l ∈ issue.raw_log, is_excluded l ex inc = false := by
  rw [processHelgrindBlock] at h
  by_cases hx :
      (splitOnChar '\n' (pyStrip ((("==Thread-Announcement--").data) ++ piece))).any
        (fun l => is_excluded l ex inc) = true
  · rw [if_pos hx] at h
    exact absurd h (by simp)
  · rw [if_neg hx] at h
    have hraw : issue.raw_log
        = splitOnChar '\n' (pyStrip ((("==Thread-Announcement--").data) ++ piece)) := by
      cases h
      rfl
    intro l hl
    have := List.any_eq_false.mp (Bool.eq_false_iff.mpr hx)
    exact Bool.eq_false_iff.mpr (this l (hraw ▸ hl))

/-- C2: include patterns force inclusion on any substring match, overriding
exclude patterns; if no include pattern matches, any exclude-pattern
substring match excludes the line; and every block kept by the helgrind
parser has no excluded line — a block with at least one excluded line is
discarded. -/
theorem c2_include_overrides_exclude_and_blocks_discarded
    (line : Str) (ex inc : List Str) (fs : Str → Except Str Str) (log_file : Str) :
    (∀ p ∈ inc, containsStr line p = true → is_excluded line ex inc = false) ∧
    ((∀ p ∈ inc, containsStr line p = false) →
      ∀ q ∈ ex, containsStr line q = true → is_excluded line ex inc = true) ∧
    (∀ issue ∈ (parse_helgrind_log fs log_file ex inc).1,
      ∀ l ∈ issue.raw_log, is_excluded l ex inc = false) := by
  refine ⟨?_, ?_, ?_⟩
  · intro p hp hc
    have hany : inc.any (fun p => containsStr line p) = true :=
      List.any_eq_true.mpr ⟨p, hp, hc⟩
    rw [is_excluded, if_pos hany]
  · intro hnone q hq hc
    have hanyInc : inc.any (fun p => containsStr line p) = false :=
      List.any_eq_false.mpr (fun p hp => by simp [hnone p hp])
    have hanyEx : ex.any (fun p => containsStr line p) = true :=
      List.any_eq_true.mpr ⟨q, hq, hc⟩
    rw [is_excluded, hanyInc]
    simp only [Bool.false_eq_true, if_false]
    rw [if_pos hanyEx]
  · intro issue hmem l hl
    rw [parse_helgrind_log] at hmem
    cases hfs : fs log_file with
    | error e =>
      rw [hfs] at hmem
      exact absurd hmem (by simp)
    | ok content =>
      rw [hfs] at hmem
      simp only [List.mem_filterMap] at hmem
      obtain ⟨piece, _, hproc⟩ := hmem
      exact processHelgrindBlock_not_excluded _ _ _ _ _ hproc l hl

/-- Witness for C2: a line containing both patterns is kept, one containing
only the exclude pattern is dropped, and a concrete parse keeps only clean
blocks. -/
theorem c2_include_overrides_exclude_and_blocks_discarded_witness :
    is_excluded (("uses debug.h but keep").data) [("debug.h").data] [("keep").data] = false ∧
    is_excluded (("uses debug.h").data) [("debug.h").data] [("keep").data] = true ∧
    is_excluded (("==Thread-Announcement--").data) [("debug.h").data] [] = false := by
  refine ⟨?_, ?_, ?_⟩
  · exact (c2_include_overrides_exclude_and_blocks_discarded (("uses debug.h but keep").data)
      [("debug.h").data] [("keep").data] (fun _ => Except.error []) []).1
      (("keep").data) (by decide) (by decide)
  · exact (c2_include_overrides_exclude_and_blocks_discarded (("uses debug.h").data)
      [("debug.h").data] [("keep").data] (fun _ => Except.error []) []).2.1
      (by decide) (("debug.h").data) (by decide) (by decide)
  · exact (c2_include_overrides_exclude_and_blocks_discarded (("==Thread-Announcement--").data)
      [("debug.h").data] []
      (fun _ => Except.ok
        (("hdr\n==7== ---Thread-Announcement--\n==7== Possible data race during write of size 4\n==7==    at 0x1: f (a.c:3)\n").data))
      (("logs/helgrind_1.log").data)).2.2
      (ThreadIssue.mk HELGRIND (("Data Race").data)
        (("==7== Possible data race during write of size 4").data) []
        [("a.c:3").data, ("(a.c:3").data] (("1").data)
        [("==Thread-Announcement--").data,
         ("==7== Possible data race during write of size 4").data,
         ("==7==    at 0x1: f (a.c:3)").data])
      (by decide) (("==Thread-Announcement--").data) (by decide)

/-- C9: a log file whose read fails contributes the diagnostic message and an
empty issue list for each of the three parsers, and the per-tool accumulation
over a list of files containing the unreadable one equals the accumulation
over the other files alone. -/
theorem c9_unreadable_file_reports_and_yields_nothing
    (fs : Str → Except Str Str) (log_file e : Str) (ex inc : List Str)
    (files1 files2 : List Str) (h : fs log_file = Except.error e) :
    parse_helgrind_log fs log_file ex inc = ([], [readErrMsg log_file e]) ∧
    parse_drd_log fs log_file ex inc = ([], [readErrMsg log_file e]) ∧
    parse_tsan_log fs log_file ex inc = ([], [readErrMsg log_file e]) ∧
    parseToolFiles parse_helgrind_log fs (files1 ++ log_file :: files2) ex inc
      = parseToolFiles parse_helgrind_log fs files1 ex inc
        ++ parseToolFiles parse_helgrind_log fs files2 ex inc ∧
    parseToolFiles parse_drd_log fs (files1 ++ log_file :: files2) ex inc
      = parseToolFiles parse_drd_log fs files1 ex inc
        ++ parseToolFiles parse_drd_log fs files2 ex inc ∧
    parseToolFiles parse_tsan_log fs (files1 ++ log_file :: files2) ex inc
      = parseToolFiles parse_tsan_log fs files1 ex inc
        ++ parseToolFiles parse_tsan_log fs files2 ex inc := by
  have h1 : parse_helgrind_log fs log_file ex inc = ([], [readErrMsg log_file e]) := by
    rw [parse_helgrind_log, h]
  have h2 : parse_drd_log fs log_file ex inc = ([], [readErrMsg log_file e]) := by
    rw [parse_drd_log, h]
  have h3 : parse_tsan_log fs log_file ex inc = ([], [readErrMsg log_file e]) := by
    rw [parse_tsan_log, h]
  refine ⟨h1, h2, h3, ?_, ?_, ?_⟩
  · simp [parseToolFiles, h1]
  · simp [parseToolFiles, h2]
  · simp [parseToolFiles, h3]

/-- Witness for C9 at a concrete failing environment. -/
theorem c9_unreadable_file_reports_and_yields_nothing_witness :
    parse_helgrind_log (fun _ => Except.error (("boom").data)) (("f.log").data) [] []
      = ([], [readErrMsg (("f.log").data) (("boom").data)]) ∧
    parse_drd_log (fun _ => Except.error (("boom").data)) (("f.log").data) [] []
      = ([], [readErrMsg (("f.log").data) (("boom").data)]) ∧
    parse_tsan_log (fun _ => Except.error (("boom").data)) (("f.log").data) [] []
      = ([], [readErrMsg (("f.log").data) (("boom").data)]) ∧
    parseToolFiles parse_helgrind_log (fun _ => Except.error (("boom").data))
        ([("a.log").data] ++ ("f.log").data :: []) [] []
      = parseToolFiles parse_helgrind_log (fun _ => Except.error (("boom").data))
          [("a.log").data] [] []
        ++ parseToolFiles parse_helgrind_log (fun _ => Except.error (("boom").data)) [] [] [] ∧
    parseToolFiles parse_drd_log (fun _ => Except.error (("boom").data))
        ([("a.log").data] ++ ("f.log").data :: []) [] []
      = parseToolFiles parse_drd_log (fun _ => Except.error (("boom").data))
          [("a.log").data] [] []
        ++ parseToolFiles parse_drd_log (fun _ => Except.error (("boom").data)) [] [] [] ∧
    parseToolFiles parse_tsan_log (fun _ => Except.error (("boom").data))
        ([("a.log").data] ++ ("f.log").data :: []) [] []
      = parseToolFiles parse_tsan_log (fun _ => Except.error (("boom").data))
          [("a.log").data] [] []
        ++ parseToolFiles parse_tsan_log (fun _ => Except.error (("boom").data)) [] [] [] :=
  c9_unreadable_file_reports_and_yields_nothing
    (fun _ => Except.error (("boom").data)) (("f.log").data) (("boom").data) [] []
    [("a.log").data] [] (by rfl)

theorem processHelgrindBlock_run_id (run_id : Str) (ex inc : List Str) (piece : Str)
    (issue : ThreadIssue) (h : processHelgrindBlock run_id ex inc piece = some issue) :
    issue.run_id = run_id := by
  rw [processHelgrindBlock] at h
  by_cases hx :
      (splitOnChar '\n' (pyStrip ((("==Thread-Announcement--").data) ++ piece))).any
        (fun l => is_excluded l ex inc) = true
  · rw [if_pos hx] at h
    exact absurd h (by simp)
  · rw [if_neg hx] at h
    cases h
    rfl

theorem processDrdBlock_run_id (run_id : Str) (ex inc : List Str) (block : Str)
    (issue : ThreadIssue) (h : processDrdBlock run_id ex inc block = some issue) :
    issue.run_id = run_id := by
  rw [processDrdBlock] at h
  by_cases hx :
      (splitOnChar '\n' (pyStrip block)).any (fun l => is_excluded l ex inc) = true
  · rw [if_pos hx] at h
    exact absurd h (by simp)
  · rw [if_neg hx] at h
    cases h
    rfl

theorem processTsanBlock_run_id (run_id : Str) (ex inc : List Str) (piece : Str)
    (issue : ThreadIssue) (h : processTsanBlock run_id ex inc piece = some issue) :
    issue.run_id = run_id := by
  rw [processTsanBlock] at h
  by_cases hx :
      (splitOnChar '\n' (pyStrip (tsanTruncate (WARNING_MARKER ++ piece)))).any
        (fun l => is_excluded l ex inc) = true
  · rw [if_pos hx] at h
    exact absurd h (by simp)
  · rw [if_neg hx] at h
    cases h
    rfl

theorem drdLoop_run_id (run_id : Str) (ex inc : List Str) (pieces : List Str) :
    ∀ (prev : Str) (issue : ThreadIssue),
      issue ∈ drdLoop run_id ex inc prev pieces → issue.run_id = run_id := by
  induction pieces with
  | nil => intro prev issue h; exact absurd h (by simp [drdLoop])
  | cons piece rest ih =>
    intro prev issue h
    rw [drdLoop] at h
    cases hp : processDrdBlock run_id ex inc
        (match reSearch matchDrdHeader prev with
         | some (hdr, _) => hdr ++ piece
         | none => piece) with
    | none =>
      rw [hp] at h
      exact ih _ issue h
    | some i =>
      rw [hp] at h
      rcases List.mem_cons.mp h with h1 | h2
      · subst h1
        exact processDrdBlock_run_id _ _ _ _ _ hp
      · exact ih _ issue h2

/-- Counterexample to C8: the run id is computed with `str.replace`, which
removes every occurrence of `helgrind_` and `.log` anywhere in the base name,
not only a leading prefix and a trailing suffix: the base name
`helgrind_a.logb.log` yields run id `ab`, not `a.logb`. -/
theorem c8_counterexample :
    ((parse_helgrind_log
        (fun _ => Except.ok
          (("hdr\n==7== ---Thread-Announcement--\n==7== Possible data race during write of size 4\n==7==    at 0x1: f (a.c:3)\n").data))
        (("x/helgrind_a.logb.log").data) [] []).1).map (fun i => i.run_id)
      = [("ab").data] ∧
    ¬ (("ab").data = specRunIdOfBase HELGRIND (basename (("x/helgrind_a.logb.log").data))) := by
  constructor
  · decide
  · decide

/-- C8 (amended): the run id of every issue produced by a parser equals the
file's base name with every occurrence of the tool-specific text
(`helgrind_`, `drd_`, `tsan_`) removed and then every occurrence of `.log`
removed (Python `str.replace` semantics); when those occur only as a leading
prefix and a trailing suffix this coincides with stripping them. -/
theorem c8_amended_run_id_replace_all
    (fs : Str → Except Str Str) (log_file : Str) (ex inc : List Str) :
    (∀ issue ∈ (parse_helgrind_log fs log_file ex inc).1,
      issue.run_id = helgrindRunId log_file) ∧
    (∀ issue ∈ (parse_drd_log fs log_file ex inc).1,
      issue.run_id = drdRunId log_file) ∧
    (∀ issue ∈ (parse_tsan_log fs log_file ex inc).1,
      issue.run_id = tsanRunId log_file) := by
  refine ⟨?_, ?_, ?_⟩
  · intro issue hmem
    rw [parse_helgrind_log] at hmem
    cases hfs : fs log_file with
    | error e =>
      rw [hfs] at hmem
      exact absurd hmem (by simp)
    | ok content =>
      rw [hfs] at hmem
      simp only [List.mem_filterMap] at hmem
      obtain ⟨piece, _, hproc⟩ := hmem
      exact processHelgrindBlock_run_id _ _ _ _ _ hproc
  · intro issue hmem
    rw [parse_drd_log] at hmem
    cases hfs : fs log_file with
    | error e =>
      rw [hfs] at hmem
      exact absurd hmem (by simp)
    | ok content =>
      rw [hfs] at hmem
      exact drdLoop_run_id _ _ _ _ _ issue hmem
  · intro issue hmem
    rw [parse_tsan_log] at hmem
    cases hfs : fs log_file with
    | error e =>
      rw [hfs] at hmem
      exact absurd hmem (by simp)
    | ok content =>
      rw [hfs] at hmem
      simp only [List.mem_filterMap] at hmem
      obtain ⟨piece, _, hproc⟩ := hmem
      exact processTsanBlock_run_id _ _ _ _ _ hproc

/-- Witness for the amended C8 at a concrete helgrind parse. -/
theorem c8_amended_run_id_replace_all_witness :
    (ThreadIssue.mk HELGRIND (("Data Race").data)
      (("==7== Possible data race during write of size 4").data) []
      [("a.c:3").data, ("(a.c:3").data] (("ab").data)
      [("==Thread-Announcement--").data,
       ("==7== Possible data race during write of size 4").data,
       ("==7==    at 0x1: f (a.c:3)").data]).run_id
    = helgrindRunId (("x/helgrind_a.logb.log").data) :=
  (c8_amended_run_id_replace_all
    (fun _ => Except.ok
      (("hdr\n==7== ---Thread-Announcement--\n==7== Possible data race during write of size 4\n==7==    at 0x1: f (a.c:3)\n").data))
    (("x/helgrind_a.logb.log").data) [] []).1
    (ThreadIssue.mk HELGRIND (("Data Race").data)
      (("==7== Possible data race during write of size 4").data) []
      [("a.c:3").data, ("(a.c:3").data] (("ab").data)
      [("==Thread-Announcement--").data,
       ("==7== Possible data race during write of size 4").data,
       ("==7==    at 0x1: f (a.c:3)").data])
    (by decide)

theorem dropWhile_head_not (p : Char → Bool) :
    ∀ (l : Str) (c : Char) (cs : Str), l.dropWhile p = c :: cs → p c = false := by
  intro l
  induction l with
  | nil => intro c cs h; exact absurd h (by simp)
  | cons a l' ih =>
    intro c cs h
    by_cases hpa : p a = true
    · rw [List.dropWhile_cons_of_pos hpa] at h
      exact ih c cs h
    · rw [List.dropWhile_cons_of_neg hpa] at h
      cases h
      exact Bool.eq_false_iff.mpr hpa

theorem pyStrip_empty_all_ws (l : Str) (h : pyStrip l = []) :
    l.dropWhile isPyWhitespace = [] := by
  cases hd : l.dropWhile isPyWhitespace with
  | nil => rfl
  | cons c cs =>
    exfalso
    have hc : isPyWhitespace c = false := dropWhile_head_not isPyWhitespace l c cs hd
    rw [pyStrip, hd] at h
    have h2 : (c :: cs).reverse.dropWhile isPyWhitespace = [] := by
      cases h3 : (c :: cs).reverse.dropWhile isPyWhitespace with
      | nil => rfl
      | cons d ds => rw [h3] at h; exact absurd h (by simp)
    have hcmem : c ∈ (c :: cs).reverse := by simp
    have : ∀ x ∈ (c :: cs).reverse, isPyWhitespace x = true := by
      intro x hx
      by_contra hnx
      have hTake := List.takeWhile_append_dropWhile (p := isPyWhitespace)
        (l := (c :: cs).reverse)
      rw [h2, List.append_nil] at hTake
      rw [← hTake] at hx
      exact hnx (List.mem_takeWhile_imp hx)
    exact (Bool.eq_false_iff.mp hc) (this c hcmem)

theorem blank_not_frame (l : Str) (h : pyStrip l = []) : vgFrameMatch l = false := by
  rw [vgFrameMatch, pyStrip_empty_all_ws l h]

theorem vgStackGo_skip (pre : List Str) :
    ∀ post : List Str, (∀ l ∈ pre, vgFrameMatch l = false) →
      vgStackGo (pre ++ post) false = vgStackGo post false := by
  induction pre with
  | nil => intro post _; rfl
  | cons l pre' ih =>
    intro post h
    have hl : vgFrameMatch l = false := h l (by simp)
    rw [List.cons_append, vgStackGo, hl]
    simp only [Bool.false_eq_true, if_false, Bool.false_and, List.isEmpty_eq_true]
    exact ih post (fun x hx => h x (by simp [hx]))

theorem vgStackGo_collect (mid : List Str) :
    ∀ (blank : Str) (post : List Str),
      (∀ l ∈ mid, (pyStrip l).isEmpty = false) → pyStrip blank = [] →
      vgStackGo (mid ++ blank :: post) true
        = (mid.filter vgFrameMatch).map vgCleanFrame := by
  induction mid with
  | nil =>
    intro blank post _ hblank
    rw [List.nil_append, vgStackGo, blank_not_frame blank hblank]
    simp [hblank]
  | cons l mid' ih =>
    intro blank post hmid hblank
    rw [List.cons_append, vgStackGo, List.filter_cons]
    by_cases hf : vgFrameMatch l = true
    · rw [hf]
      simp only [if_true, List.map_cons]
      rw [ih blank post (fun x hx => hmid x (by simp [hx])) hblank]
    · rw [Bool.eq_false_iff.mpr hf]
      simp only [Bool.false_eq_true, if_false]
      have : (pyStrip l).isEmpty = false := hmid l (by simp)
      rw [this]
      simp only [Bool.true_and, Bool.false_eq_true, if_false]
      exact ih blank post (fun x hx => hmid x (by simp [hx])) hblank

/-- C3: for the helgrind and drd detectors, stack-frame extraction (1) skips
any leading lines with no `at`/`by` marker, blank ones included, without
terminating; (2) after a first frame, collects exactly the marker lines up to
the first blank line and ignores everything after it; (3) recognizes a frame
line by an optionally indented `at` (or `by`) marker followed by whitespace,
strips marker and indentation, and keeps the remainder as the frame. -/
theorem c3_valgrind_stack_extraction
    (tool : Str) (htool : tool = HELGRIND ∨ tool = DRD)
    (pre mid post : List Str) (f blank : Str) (ind r : Str) :
    ((∀ l ∈ pre, vgFrameMatch l = false) →
      extract_stack_trace (pre ++ post) tool = extract_stack_trace post tool) ∧
    (vgFrameMatch f = true → (∀ l ∈ mid, (pyStrip l).isEmpty = false) →
      pyStrip blank = [] →
      extract_stack_trace (f :: mid ++ blank :: post) tool
        = vgCleanFrame f :: (mid.filter vgFrameMatch).map vgCleanFrame) ∧
    ((∀ c ∈ ind, isPyWhitespace c = true) →
      ∀ c1 c2 : Char, r.head? = some c1 → isPyWhitespace c1 = false →
        r.getLast? = some c2 → isPyWhitespace c2 = false →
        vgFrameMatch (ind ++ 'a' :: 't' :: ' ' :: r) = true ∧
        vgCleanFrame (ind ++ 'a' :: 't' :: ' ' :: r) = r) := by
  have hvg : ∀ block : List Str, extract_stack_trace block tool = vgStackGo block false := by
    intro block
    rw [extract_stack_trace, if_pos htool]
  refine ⟨?_, ?_, ?_⟩
  · intro hpre
    rw [hvg, hvg]
    exact vgStackGo_skip pre post hpre
  · intro hf hmid hblank
    rw [hvg]
    rw [List.cons_append, vgStackGo, hf]
    simp only [if_true]
    rw [vgStackGo_collect mid blank post hmid hblank]
  · intro hind c1 c2 hc1 hws1 hc2 hws2
    obtain ⟨r1, hr1⟩ := List.head?_eq_some_iff.mp hc1
    have hrrev : r.reverse.head? = some c2 := by
      rw [List.head?_reverse]
      exact hc2
    obtain ⟨r2, hr2⟩ := List.head?_eq_some_iff.mp hrrev
    have hdropAll :
        (ind ++ 'a' :: 't' :: ' ' :: r).dropWhile isPyWhitespace
          = 'a' :: 't' :: ' ' :: r := by
      rw [List.dropWhile_append_of_pos hind,
        List.dropWhile_cons_of_neg (by decide)]
    have hstrip : pyStrip (ind ++ 'a' :: 't' :: ' ' :: r) = 'a' :: 't' :: ' ' :: r := by
      rw [pyStrip, hdropAll]
      have hrev : ('a' :: 't' :: ' ' :: r).reverse = r.reverse ++ [' ', 't', 'a'] := by
        simp
      rw [hrev, hr2, List.cons_append,
        List.dropWhile_cons_of_neg (by rw [hws2]; simp)]
      rw [← List.cons_append, ← hr2, List.reverse_append, List.reverse_reverse]
      rfl
    constructor
    · rw [vgFrameMatch, hdropAll]
      rfl
    · rw [vgCleanFrame]
      simp only [hstrip]
      rw [if_pos (by decide)]
      rw [hr1, List.dropWhile_cons_of_neg (by rw [hws1]; simp)]

/-- Witness for C3 at concrete lines for both tools. -/
theorem c3_valgrind_stack_extraction_witness :
    extract_stack_trace ([("==7== junk").data, [], ("  more").data]
        ++ [("   at f (a.c:1)").data]) HELGRIND
      = extract_stack_trace [("   at f (a.c:1)").data] HELGRIND ∧
    extract_stack_trace ((("   at f (a.c:1)").data)
        :: [("junk").data, ("  by g (b.c:2)").data] ++ ("  ").data :: [("at h (c.c:3)").data]) DRD
      = vgCleanFrame (("   at f (a.c:1)").data)
        :: ([("junk").data, ("  by g (b.c:2)").data].filter vgFrameMatch).map vgCleanFrame ∧
    vgFrameMatch ((("  ").data) ++ 'a' :: 't' :: ' ' :: ("f (a.c:1)").data) = true ∧
    vgCleanFrame ((("  ").data) ++ 'a' :: 't' :: ' ' :: ("f (a.c:1)").data) = ("f (a.c:1)").data := by
  refine ⟨?_, ?_, ?_⟩
  · exact (c3_valgrind_stack_extraction HELGRIND (Or.inl rfl)
      [("==7== junk").data, [], ("  more").data] [] [("   at f (a.c:1)").data]
      [] [] [] []).1 (by decide)
  · exact (c3_valgrind_stack_extraction DRD (Or.inr rfl)
      [] [("junk").data, ("  by g (b.c:2)").data] [("at h (c.c:3)").data]
      (("   at f (a.c:1)").data) (("  ").data) [] []).2.1
      (by decide) (by decide) (by decide)
  · exact (c3_valgrind_stack_extraction HELGRIND (Or.inl rfl) [] [] [] [] []
      (("  ").data) (("f (a.c:1)").data)).2.2
      (by decide) 'f' ')' (by decide) (by decide) (by decide) (by decide)

/-- Counterexample to C4: on the block with lines `(foo.c:42)` and
`at bar.h:7`, the extracted set also contains the entry `(foo.c:42` — the
bare `path:line` pattern `([^:\s]+\.[ch][^:]*):(\d+)` matches the
parenthesized reference with its opening parenthesis included — so the result
is not exactly the two-element set the claim states. -/
theorem c4_counterexample :
    (("(foo.c:42").data ∈ extract_file_locations [("(foo.c:42)").data, ("at bar.h:7").data]) ∧
    ¬ (("(foo.c:42").data ∈ [("foo.c:42").data, ("bar.h:7").data]) := by
  constructor
  · decide
  · decide

/-- C4 (amended): on that block the extracted set is exactly
`{foo.c:42, (foo.c:42, bar.h:7}` — the two claimed entries plus the
parenthesis-prefixed artifact of the bare pattern — and, as a set, it does
not depend on the order of the two lines (only the insertion order of the
set-model list changes). -/
theorem c4_amended_extraction_set :
    extract_file_locations [("(foo.c:42)").data, ("at bar.h:7").data]
      = [("foo.c:42").data, ("(foo.c:42").data, ("bar.h:7").data] ∧
    extract_file_locations [("at bar.h:7").data, ("(foo.c:42)").data]
      = [("bar.h:7").data, ("foo.c:42").data, ("(foo.c:42").data] ∧
    (∀ x : Str,
      x ∈ extract_file_locations [("(foo.c:42)").data, ("at bar.h:7").data]
        ↔ x ∈ extract_file_locations [("at bar.h:7").data, ("(foo.c:42)").data]) := by
  refine ⟨by decide, by decide, ?_⟩
  intro x
  rw [show extract_file_locations [("(foo.c:42)").data, ("at bar.h:7").data]
      = [("foo.c:42").data, ("(foo.c:42").data, ("bar.h:7").data] from by decide]
  rw [show extract_file_locations [("at bar.h:7").data, ("(foo.c:42)").data]
      = [("bar.h:7").data, ("foo.c:42").data, ("(foo.c:42").data] from by decide]
  simp only [List.mem_cons, List.not_mem_nil, or_false]
  tauto

/-- C5 is a code bug: the drd parser's `prev_header` re-search can never find
the split-consumed header (split pieces contain no delimiter match, and the
first iteration searches the initial empty string), so no block is ever
reassembled.  On the spec's Scenario A input, the single produced issue is
classified `Unknown` with description `Unknown issue`, its stack frames are
`["thread 2 at 0x... (file.c:10)"]` (the leftover `by thread 2 ...` tail of
the consumed header line is itself mistaken for a frame line), not
`["func (file.c:10)"]`, and its file locations are not `{"file.c:10"}`. -/
theorem c5_drd_header_never_reattached :
    ((parse_drd_log
        (fun _ => Except.ok
          (("h\n==9== Conflicting store by thread 2 at 0x... (file.c:10)\n==9== by func (file.c:10)\n").data))
        (("drd_1.log").data) [] []).1).map
      (fun i => (i.issue_type, i.description, i.stack_trace, i.file_locations))
      = [((("Unknown").data), (("Unknown issue").data),
          [("thread 2 at 0x... (file.c:10)").data],
          [("0x... (file.c:10").data, ("file.c:10").data, ("(file.c:10").data])] := by
  decide

theorem showIssuesGo_trailer (toolU : Str) (max_issues total : Nat) (l : List ThreadIssue) :
    ∀ i : Nat, i ≤ max_issues → max_issues < i + l.length →
      showIssuesGo toolU max_issues total i l
        = (((l.take (max_issues - i)).enumFrom i).map
            (fun p => issueReportLines p.1 p.2)).flatten
          ++ [moreIssuesLine toolU max_issues total] := by
  induction l with
  | nil =>
    intro i hle hlt
    simp only [List.length_nil] at hlt
    omega
  | cons a rest ih =>
    intro i hle hlt
    rw [showIssuesGo]
    by_cases hi : max_issues ≤ i
    · have : i = max_issues := Nat.le_antisymm hle hi
      subst this
      rw [if_pos (Nat.le_refl _)]
      simp
    · rw [if_neg hi]
      have h1 : max_issues - i = (max_issues - (i + 1)) + 1 := by omega
      rw [h1, List.take_succ_cons, List.enumFrom_cons, List.map_cons, List.flatten_cons,
        List.append_assoc]
      congr 1
      refine ih (i + 1) (by omega) ?_
      simp only [List.length_cons] at hlt
      omega

/-- C7: when a tool has more than `max_issues` deduplicated issues, the
detailed listing shows exactly the first `max_issues` sorted issues and then
one trailer that names the number of omitted issues (`total - max_issues`,
so 2 when 12 issues meet the default cap of 10), while the per-tool summary
count line and the total line are computed over the full issue lists,
unaffected by the cap. -/
theorem c7_max_issues_truncation
    (tool : Str) (issues : List ThreadIssue) (max_issues : Nat)
    (all1 all2 : List (Str × List ThreadIssue))
    (h : max_issues < issues.length) :
    showIssuesGo (upperStr tool) max_issues (sortIssuesByType issues).length 0
        (sortIssuesByType issues)
      = ((((sortIssuesByType issues).take max_issues).enum).map
          (fun p => issueReportLines p.1 p.2)).flatten
        ++ [moreIssuesLine (upperStr tool) max_issues issues.length] ∧
    ((sortIssuesByType issues).take max_issues).length = max_issues ∧
    (toolSummaryLines tool issues).head?
      = some (upperStr tool ++ ((": ").data) ++ natStr issues.length
          ++ ((" issues found").data)) ∧
    totalSummaryLine (all1 ++ (tool, issues) :: all2)
      = ("Total unique issues found: ").data
        ++ natStr (((all1 ++ (tool, issues) :: all2).map (fun p => p.2.length)).sum) := by
  have hlen : (sortIssuesByType issues).length = issues.length :=
    List.length_insertionSort _ issues
  have hne : issues ≠ [] := by
    intro hnil
    rw [hnil] at h
    simp at h
  refine ⟨?_, ?_, ?_, rfl⟩
  · have := showIssuesGo_trailer (upperStr tool) max_issues
      (sortIssuesByType issues).length (sortIssuesByType issues) 0
      (Nat.zero_le _) (by omega)
    simpa [List.enum, hlen] using this
  · rw [List.length_take, hlen]
    omega
  · rw [toolSummaryLines, if_neg hne]
    rfl

/-- Witness for C7: 12 issues of one category against the default cap of 10
show exactly 10 rendered issues and a trailer naming 2 more. -/
theorem c7_max_issues_truncation_witness :
    showIssuesGo (upperStr (("drd").data)) 10 (sortIssuesByType twelveIssues).length 0
        (sortIssuesByType twelveIssues)
      = ((((sortIssuesByType twelveIssues).take 10).enum).map
          (fun p => issueReportLines p.1 p.2)).flatten
        ++ [moreIssuesLine (upperStr (("drd").data)) 10 twelveIssues.length] ∧
    ((sortIssuesByType twelveIssues).take 10).length = 10 ∧
    (toolSummaryLines (("drd").data) twelveIssues).head?
      = some (upperStr (("drd").data) ++ ((": ").data) ++ natStr twelveIssues.length
          ++ ((" issues found").data)) ∧
    totalSummaryLine (([] : List (Str × List ThreadIssue)) ++ ((("drd").data), twelveIssues) :: [])
      = ("Total unique issues found: ").data
        ++ natStr (((([] : List (Str × List ThreadIssue)) ++ ((("drd").data), twelveIssues) :: []).map
            (fun p => p.2.length)).sum) :=
  c7_max_issues_truncation (("drd").data) twelveIssues 10 [] [] (by decide)

theorem is_excluded_nil_nil (l : Str) : is_excluded l [] [] = false := rfl

theorem any_is_excluded_nil_nil (lines : List Str) :
    lines.any (fun l => is_excluded l [] []) = false := by
  refine List.any_eq_false.mpr ?_
  intro x _
  rw [is_excluded_nil_nil]
  simp

theorem dropWhile_ne_nil_of_mem_not (p : Char → Bool) (l : Str) (c : Char)
    (hc : c ∈ l) (hp : p c = false) : l.dropWhile p ≠ [] := by
  intro h
  have hTake := List.takeWhile_append_dropWhile (p := p) (l := l)
  rw [h, List.append_nil] at hTake
  rw [← hTake] at hc
  exact (Bool.eq_false_iff.mp hp) (List.mem_takeWhile_imp hc)

theorem splitOnChar_append_first (A : Str) :
    ∀ B : Str, (∀ c ∈ A, ¬ c = '\n') →
      splitOnChar '\n' (A ++ '\n' :: B) = A :: splitOnChar '\n' B := by
  induction A with
  | nil =>
    intro B _
    rw [List.nil_append, splitOnChar, if_pos rfl]
  | cons a A' ih =>
    intro B h
    have ha : ¬ a = '\n' := h a (by simp)
    rw [List.cons_append, splitOnChar, if_neg ha, ih B (fun c hc => h c (by simp [hc]))]

theorem tsan_summary_lines (t : Str) :
    ∃ ls, splitOnChar '\n'
        (pyStrip ((("WARNING: ThreadSanitizer: SUMMARY: foo").data) ++ '\n' :: t))
      = (("WARNING: ThreadSanitizer: SUMMARY: foo").data) :: ls := by
  have hfront :
      ((("WARNING: ThreadSanitizer: SUMMARY: foo").data) ++ '\n' :: t).dropWhile isPyWhitespace
        = (("WARNING: ThreadSanitizer: SUMMARY: foo").data) ++ '\n' :: t := by
    rw [List.dropWhile_append]
    rw [show ((("WARNING: ThreadSanitizer: SUMMARY: foo").data).dropWhile isPyWhitespace)
        = (("WARNING: ThreadSanitizer: SUMMARY: foo").data) from by decide]
    rw [show ((("WARNING: ThreadSanitizer: SUMMARY: foo").data).isEmpty) = false from by decide]
    simp
  have hrev :
      ((("WARNING: ThreadSanitizer: SUMMARY: foo").data) ++ '\n' :: t).reverse
        = t.reverse ++ ('\n' :: (("WARNING: ThreadSanitizer: SUMMARY: foo").data).reverse) := by
    rw [List.reverse_append, List.reverse_cons, List.append_assoc, List.singleton_append]
  by_cases hws : ∀ c ∈ t, isPyWhitespace c = true
  · refine ⟨[], ?_⟩
    rw [pyStrip, hfront, hrev]
    rw [List.dropWhile_append_of_pos (by
      intro a ha
      rw [List.mem_reverse] at ha
      exact hws a ha)]
    rw [List.dropWhile_cons_of_pos (by decide)]
    rw [show (((("WARNING: ThreadSanitizer: SUMMARY: foo").data).reverse).dropWhile isPyWhitespace)
        = ((("WARNING: ThreadSanitizer: SUMMARY: foo").data).reverse) from by decide]
    rw [List.reverse_reverse]
    decide
  · push_neg at hws
    obtain ⟨c, hc, hnc⟩ := hws
    have hcf : isPyWhitespace c = false := Bool.eq_false_iff.mpr hnc
    have hD : t.reverse.dropWhile isPyWhitespace ≠ [] :=
      dropWhile_ne_nil_of_mem_not isPyWhitespace t.reverse c (List.mem_reverse.mpr hc) hcf
    have hDempty : (t.reverse.dropWhile isPyWhitespace).isEmpty = false := by
      cases hcase : t.reverse.dropWhile isPyWhitespace with
      | nil => exact absurd hcase hD
      | cons d ds => rfl
    have hstrip :
        pyStrip ((("WARNING: ThreadSanitizer: SUMMARY: foo").data) ++ '\n' :: t)
          = (("WARNING: ThreadSanitizer: SUMMARY: foo").data)
            ++ '\n' :: (t.reverse.dropWhile isPyWhitespace).reverse := by
      rw [pyStrip, hfront, hrev, List.dropWhile_append, hDempty]
      simp only [Bool.false_eq_true, if_false]
      rw [List.reverse_append, List.reverse_cons, List.reverse_reverse, List.append_assoc,
        List.singleton_append]
    rw [hstrip]
    exact ⟨splitOnChar '\n' ((t.reverse.dropWhile isPyWhitespace).reverse),
      splitOnChar_append_first _ _ (by decide)⟩

/-- C6: a compiler-instrumented (tsan) block that begins
`WARNING: ThreadSanitizer: SUMMARY: foo` (with the rest of the block, if any,
starting on the next line) and contains none of the race /
lock-order-inversion / deadlock / thread-leak / use-after-free keywords is
classified with the free-text category `SUMMARY` — the text between the
`WARNING: ThreadSanitizer:` marker and the next colon — rather than
`Unknown`, and its description is the block's first line. -/
theorem c6_tsan_free_text_category (run_id : Str) (piece r2 : Str)
    (hb : tsanTruncate (WARNING_MARKER ++ piece)
        = (("WARNING: ThreadSanitizer: SUMMARY: foo").data) ++ r2)
    (hr2 : r2 = [] ∨ ∃ t2, r2 = '\n' :: t2)
    (h1 : containsStr
        (lowerStr ((("WARNING: ThreadSanitizer: SUMMARY: foo").data) ++ r2))
        (("data race").data) = false)
    (h2 : containsStr
        (lowerStr ((("WARNING: ThreadSanitizer: SUMMARY: foo").data) ++ r2))
        (("lock order inversion").data) = false)
    (h3 : containsStr
        (lowerStr ((("WARNING: ThreadSanitizer: SUMMARY: foo").data) ++ r2))
        (("deadlock").data) = false)
    (h4 : containsStr
        (lowerStr ((("WARNING: ThreadSanitizer: SUMMARY: foo").data) ++ r2))
        (("thread leak").data) = false)
    (h5 : containsStr
        (lowerStr ((("WARNING: ThreadSanitizer: SUMMARY: foo").data) ++ r2))
        (("use-after-free").data) = false) :
    (processTsanBlock run_id [] [] piece).map (fun i => i.issue_type)
      = some (("SUMMARY").data) ∧
    (processTsanBlock run_id [] [] piece).map (fun i => i.description)
      = some (("WARNING: ThreadSanitizer: SUMMARY: foo").data) := by
  obtain ⟨ls, hlines⟩ : ∃ ls,
      splitOnChar '\n' (pyStrip (tsanTruncate (WARNING_MARKER ++ piece)))
        = (("WARNING: ThreadSanitizer: SUMMARY: foo").data) :: ls := by
    rcases hr2 with h | ⟨t2, h⟩
    · subst h
      rw [hb, List.append_nil]
      exact ⟨[], by decide⟩
    · subst h
      rw [hb]
      exact tsan_summary_lines t2
  rw [hb] at hlines
  rw [processTsanBlock, hb, hlines]
  rw [any_is_excluded_nil_nil]
  simp only [Bool.false_eq_true, if_false, h1, h2, h3, h4, h5, Bool.or_self,
    Bool.or_false, Bool.false_or]
  constructor
  · rfl
  · rfl

/-- Witness for C6 at a concrete tsan block with a stack line and trailing
text beyond the blank line. -/
theorem c6_tsan_free_text_category_witness :
    (processTsanBlock (("2").data) [] [] (((" SUMMARY: foo\n  #0 bar\n\nmore").data))).map
        (fun i => i.issue_type)
      = some (("SUMMARY").data) ∧
    (processTsanBlock (("2").data) [] [] (((" SUMMARY: foo\n  #0 bar\n\nmore").data))).map
        (fun i => i.description)
      = some (("WARNING: ThreadSanitizer: SUMMARY: foo").data) :=
  c6_tsan_free_text_category (("2").data) ((" SUMMARY: foo\n  #0 bar\n\nmore").data)
    (("\n  #0 bar").data)
    (by decide)
    (Or.inr ⟨(("  #0 bar").data), by decide⟩)
    (by decide) (by decide) (by decide) (by decide) (by decide)
